import Mathlib

/-!
# Verification of the field-encryption layer of the Eunoia backend

This file embeds `src/utils/encryption.js` (the AES-256-GCM `encrypt` /
`decrypt` pair, called `protect` / `reveal` in the specification) and the
wellness-check model's bulk post-query decryption hooks, and proves the
specification's claims about them.

Modelling conventions:

* JavaScript strings are modelled by their UTF-8 byte sequences
  (`List Nat`, every entry `< 256`): the cipher itself operates on
  `Buffer.from(text, 'utf8')`, and the colon character `:` is byte 58,
  which in UTF-8 occurs only as the colon itself (continuation bytes of
  multi-byte characters are ≥ 0x80), so `includes(':')` and splitting on
  `:` coincide with byte-level membership of 58 and splitting on 58.
* Arbitrary JavaScript values reaching `encrypt` / `decrypt` are modelled
  by `JSValue` (strings, numbers, booleans, `null`, `undefined`), enough
  to express the guard `if (!text || typeof text !== 'string')`.
* The AES-256-GCM primitive is used by the source only through the
  structure of an authenticated stream cipher: a keystream that depends
  on (key, iv, byte position) and not on the plaintext, with
  ciphertext = plaintext XOR keystream, and an authentication tag that is
  a deterministic 16-byte function of (key, iv, ciphertext) checked by
  `decipher.final`.  `keyStreamByte` and `computeAuthTag` are concrete
  executable stand-ins with exactly that interface; no claim below
  depends on the internals of the AES permutation or of GHASH, only on
  this interface, which the proofs use and concrete witnesses evaluate.
* Thrown JavaScript errors are modelled by `Except String`, carrying the
  error message.  In `decrypt` every throw inside the `try` block —
  including the `'Invalid encrypted data format'` segment-count throw —
  is caught by the surrounding `catch`, which rethrows
  `new Error('Failed to decrypt data')`; the model therefore surfaces
  that single message on every failing path, as the source does to its
  caller.
* `crypto.randomBytes` is modelled by reading from an ambient stream of
  random bytes `Nat → Nat` at a cursor position, the position being the
  state that a sequence of calls threads through.
-/

/-- JavaScript runtime values as far as the encryption layer inspects
them: a string (as its UTF-8 bytes), a number, a boolean, `null` or
`undefined`. -/
inductive JSValue where
  | vStr : List Nat → JSValue
  | vNum : Int → JSValue
  | vBool : Bool → JSValue
  | vNull : JSValue
  | vUndef : JSValue
deriving DecidableEq, Repr

deriving instance DecidableEq for Except

/-- A byte list is a valid byte string when every entry fits in a byte. -/
def validBytes (l : List Nat) : Prop := ∀ b ∈ l, b < 256

instance : DecidablePred validBytes := fun l =>
  inferInstanceAs (Decidable (∀ b ∈ l, b < 256))

/-- The guard `!text || typeof text !== 'string'` shared by `encrypt` and
`decrypt`: passthrough unless the value is a non-empty string. -/
def isNonEmptyString : JSValue → Bool
  | JSValue.vStr s => !s.isEmpty
  | _ => false

/-! ## Hex encoding and decoding (Node `Buffer` semantics) -/

/-- Lowercase hex digit of a nibble, as Node's `buf.toString('hex')`
produces: `0`–`9` are bytes 48–57, `a`–`f` are bytes 97–102. -/
def hexDigit (n : Nat) : Nat := if n < 10 then 48 + n else 87 + n

/-- Hex-encode a byte list: two lowercase hex digits per byte. -/
def hexEncode : List Nat → List Nat
  | [] => []
  | b :: bs => hexDigit (b / 16) :: hexDigit (b % 16) :: hexEncode bs

/-- Value of one hex digit character, accepting the digits, lowercase and
uppercase letters that Node's hex decoder accepts. -/
def hexVal (c : Nat) : Option Nat :=
  if 48 ≤ c ∧ c ≤ 57 then some (c - 48)
  else if 97 ≤ c ∧ c ≤ 102 then some (c - 87)
  else if 65 ≤ c ∧ c ≤ 70 then some (c - 55)
  else none

/-- Hex-decode with Node `Buffer.from(str, 'hex')` semantics: consume
two characters per byte, stop (keeping the prefix) at the first invalid
pair, drop a lone trailing character. -/
def hexDecode : List Nat → List Nat
  | [] => []
  | [_] => []
  | c1 :: c2 :: rest =>
    match hexVal c1, hexVal c2 with
    | some h, some l => (16 * h + l) :: hexDecode rest
    | _, _ => []

/-! ## Splitting on a byte (JavaScript `String.prototype.split`) -/

/-- Split a byte string at every occurrence of the delimiter byte, as
JavaScript `s.split(d)` does: empty chunks are kept and the empty string
splits to one empty chunk. -/
def splitOnByte (d : Nat) : List Nat → List (List Nat)
  | [] => [[]]
  | b :: bs =>
    let r := splitOnByte d bs
    if b = d then [] :: r
    else (b :: r.headD []) :: r.tail

/-! ## The AES-256-GCM primitive, as an authenticated stream cipher -/

/-- Iterated mixing fold used by the concrete cipher stand-ins. -/
def mixFold (seed : Nat) (l : List Nat) : Nat :=
  l.foldl (fun a b => (a * 131 + b + 7) % 1000003) seed

/-- Concrete stand-in for the CTR keystream of `aes-256-gcm`: one
keystream byte per position, a function of the key, the iv and the byte
position only — never of the plaintext. -/
def keyStreamByte (key iv : List Nat) (i : Nat) : Nat :=
  mixFold (mixFold (mixFold 5381 key) iv) [i] % 256

/-- CTR-mode en/decryption starting at byte position `i`:
each byte is XORed with its keystream byte.  `cipher.update`/`final`
with the same key and iv apply the identical transformation in both
directions. -/
def cipherBytes (key iv : List Nat) : Nat → List Nat → List Nat
  | _, [] => []
  | i, b :: bs => (b ^^^ keyStreamByte key iv i) :: cipherBytes key iv (i + 1) bs

/-- Concrete stand-in for the 16-byte GCM authentication tag returned by
`cipher.getAuthTag()` and checked by `decipher.final()`: a deterministic
16-byte function of the key, the iv and the ciphertext. -/
def computeAuthTag (key iv ct : List Nat) : List Nat :=
  (List.range 16).map fun j =>
    mixFold (mixFold (mixFold (mixFold 7919 key) iv) ct) [j] % 256

/-! ## `encrypt` (spec: `protect`), from `src/utils/encryption.js` -/

/-- `encrypt(text)` with the process key and the freshly drawn iv made
explicit.  Mirrors the source: passthrough for anything but a non-empty
string; otherwise encrypt the UTF-8 bytes and return
`iv_hex : tag_hex : ciphertext_hex` (colon is byte 58).  The `catch`
branch of the source (`'Failed to encrypt data'`) is unreachable here:
`createCipheriv` accepts every 32-byte key and `update`/`final`/
`getAuthTag` cannot throw on that path, so the model is total. -/
def encrypt (key iv : List Nat) (v : JSValue) : JSValue :=
  match v with
  | JSValue.vStr s =>
    if s = [] then JSValue.vStr s
    else
      let ct := cipherBytes key iv 0 s
      let tag := computeAuthTag key iv ct
      JSValue.vStr (hexEncode iv ++ 58 :: (hexEncode tag ++ 58 :: hexEncode ct))
  | w => w

/-! ## `decrypt` (spec: `reveal`), from `src/utils/encryption.js` -/

/-- The body of `decrypt`'s `try` block after `split(':')`, matching the
destructuring `const [ivHex, authTagHex, encryptedData] = parts` guarded
by `parts.length !== 3`.  Every throw inside the `try` — the
segment-count check, `createDecipheriv` rejecting an empty GCM iv,
`setAuthTag` rejecting a tag that is not the full 16 bytes the encryptor
produces, and `decipher.final` failing authentication — is converted by
the surrounding `catch` into the single error
`'Failed to decrypt data'`, which is what this function returns on every
failing path. -/
def decryptParts (key : List Nat) : List (List Nat) → Except String JSValue
  | [ivHex, authTagHex, encryptedData] =>
    let iv := hexDecode ivHex
    let authTag := hexDecode authTagHex
    if iv = [] then Except.error "Failed to decrypt data"
    else if authTag.length ≠ 16 then Except.error "Failed to decrypt data"
    else
      let ct := hexDecode encryptedData
      if authTag ≠ computeAuthTag key iv ct then Except.error "Failed to decrypt data"
      else Except.ok (JSValue.vStr (cipherBytes key iv 0 ct))
  | _ => Except.error "Failed to decrypt data"

/-- `decrypt(encryptedText)` with the process key explicit.  Mirrors the
source: passthrough for anything but a non-empty string; passthrough for
a string with no colon (legacy plaintext, backward compatibility);
otherwise split on colon and run `decryptParts`. -/
def decrypt (key : List Nat) (v : JSValue) : Except String JSValue :=
  match v with
  | JSValue.vStr s =>
    if s = [] then Except.ok (JSValue.vStr s)
    else if 58 ∈ s then decryptParts key (splitOnByte 58 s)
    else Except.ok (JSValue.vStr s)
  | w => Except.ok w

/-! ## Key derivation and randomness, from `getEncryptionKey` -/

/-- `crypto.randomBytes(n)` modelled as reading `n` bytes of an ambient
random stream starting at cursor `pos`. -/
def randBytes (stream : Nat → Nat) (pos n : Nat) : List Nat :=
  (List.range n).map fun i => stream (pos + i) % 256

/-- Concrete executable stand-in for
`crypto.scryptSync(key, 'salt', 32)`: a deterministic 32-byte key
derived from the secret bytes and the fixed salt `"salt"`
(bytes 115, 97, 108, 116). -/
def scryptSync (secret : List Nat) : List Nat :=
  (List.range 32).map fun i =>
    (mixFold 1099 (secret ++ [115, 97, 108, 116]) * (2 * i + 3) + i) % 256

/-- `getEncryptionKey()`: if `process.env.ENCRYPTION_KEY` is unset, warn
and return `crypto.randomBytes(32)` — drawn afresh from the random
stream on every call, advancing the cursor; otherwise derive the key
from the secret with `scryptSync` (no randomness consumed).  Returns the
key together with the new random-stream cursor. -/
def getEncryptionKey (env : Option (List Nat)) (stream : Nat → Nat) (pos : Nat) :
    List Nat × Nat :=
  match env with
  | none => (randBytes stream pos 32, pos + 32)
  | some secret => (scryptSync secret, pos)

/-! ## Wellness-check `post('find')` / `post('findOne')` answer hooks -/

/-- The per-document body of `wellnessCheckSchema.post('find')` and
`post('findOne')` from the wellness-check model: decrypt each entry of
the `answers` map, and on a per-entry decryption error keep the stored
(encrypted) value in place — the error is caught, logged and not
rethrown, so the hook never fails. -/
def decryptAnswersHook (key : List Nat) (answers : List (List Nat × List Nat)) :
    List (List Nat × List Nat) :=
  answers.map fun kv =>
    match decrypt key (JSValue.vStr kv.2) with
    | Except.ok (JSValue.vStr d) => (kv.1, d)
    | _ => (kv.1, kv.2)

/-! ## Auxiliary definitions used in claim statements and witnesses -/

/-- A byte is a lowercase hex digit character (`[0-9a-f]`), the character
class of the token-format regular expression. -/
def isLowerHexByte (c : Nat) : Prop := (48 ≤ c ∧ c ≤ 57) ∨ (97 ≤ c ∧ c ≤ 102)

instance : DecidablePred isLowerHexByte := fun c =>
  inferInstanceAs (Decidable ((48 ≤ c ∧ c ≤ 57) ∨ (97 ≤ c ∧ c ≤ 102)))

/-- A concrete random-byte stream used by closed witnesses: byte `n` of
the stream is `n % 256`. -/
def idStream : Nat → Nat := fun n => n

/-- Concrete 32-byte process key used by closed witnesses, derived from
the one-character secret `"k"` (byte 107). -/
def cexKey : List Nat := scryptSync [107]

/-- Concrete 16-byte iv used by closed witnesses. -/
def cexIv : List Nat := (List.range 16).map fun i => 10 * i + 3

/-- A second concrete 16-byte iv, distinct from `cexIv`, used by closed
witnesses about nonce freshness. -/
def cexIv2 : List Nat := (List.range 16).map fun i => 10 * i + 4

/-- A concrete well-formed three-segment token whose tag segment is
16 zero bytes, which does not authenticate under `cexKey`: a tampered
token used by closed counterexamples. -/
def cexBadToken : List Nat :=
  hexEncode cexIv ++ 58 ::
    (hexEncode (List.replicate 16 0) ++ 58 ::
      hexEncode (cipherBytes cexKey cexIv 0 [104, 105]))

/-! ## Lemmas about hex encoding -/

/-- Decoding the hex digit of a nibble recovers the nibble. -/
theorem hexVal_hexDigit (n : Nat) (h : n < 16) : hexVal (hexDigit n) = some n := by
  by_cases hn : n < 10
  · have h1 : 48 ≤ 48 + n ∧ 48 + n ≤ 57 := by omega
    simp [hexDigit, hexVal, hn, h1]
  · have h1 : ¬(48 ≤ 87 + n ∧ 87 + n ≤ 57) := by omega
    have h2 : 97 ≤ 87 + n ∧ 87 + n ≤ 102 := by omega
    simp [hexDigit, hexVal, hn, h1, h2]

/-- No hex digit character is the colon byte 58. -/
theorem hexDigit_ne_colon (n : Nat) : hexDigit n ≠ 58 := by
  unfold hexDigit
  split <;> omega

/-- The colon byte never occurs in a hex-encoded string. -/
theorem colon_not_mem_hexEncode (l : List Nat) : 58 ∉ hexEncode l := by
  induction l with
  | nil => simp [hexEncode]
  | cons b bs ih =>
    simp only [hexEncode, List.mem_cons, not_or]
    exact ⟨fun h => hexDigit_ne_colon _ h.symm, fun h => hexDigit_ne_colon _ h.symm, ih⟩

/-- Hex decoding inverts hex encoding on valid byte strings. -/
theorem hexDecode_hexEncode (l : List Nat) (hl : validBytes l) :
    hexDecode (hexEncode l) = l := by
  induction l with
  | nil => simp [hexEncode, hexDecode]
  | cons b bs ih =>
    have hb : b < 256 := hl b (List.mem_cons_self b bs)
    have hbs : validBytes bs := fun x hx => hl x (List.mem_cons_of_mem b hx)
    have hq : b / 16 < 16 := by omega
    have hr : b % 16 < 16 := Nat.mod_lt b (by omega)
    simp only [hexEncode, hexDecode, hexVal_hexDigit _ hq, hexVal_hexDigit _ hr, ih hbs]
    congr 1
    omega

/-- Hex encoding doubles the length. -/
theorem hexEncode_length (l : List Nat) : (hexEncode l).length = 2 * l.length := by
  induction l with
  | nil => simp [hexEncode]
  | cons b bs ih => simp [hexEncode, ih]; omega

/-- Every byte of a hex encoding of a valid byte string is a lowercase
hex digit character. -/
theorem hexEncode_isLowerHex (l : List Nat) (hl : validBytes l) :
    ∀ c ∈ hexEncode l, isLowerHexByte c := by
  induction l with
  | nil => simp [hexEncode]
  | cons b bs ih =>
    intro c hc
    have hb : b < 256 := hl b (List.mem_cons_self b bs)
    have hbs : validBytes bs := fun x hx => hl x (List.mem_cons_of_mem b hx)
    simp only [hexEncode, List.mem_cons] at hc
    rcases hc with h | h | h
    · subst h
      unfold hexDigit isLowerHexByte
      split <;> omega
    · subst h
      have : b % 16 < 16 := Nat.mod_lt b (by omega)
      unfold hexDigit isLowerHexByte
      split <;> omega
    · exact ih hbs c h

/-- Hex encoding is injective on valid byte strings. -/
theorem hexEncode_injective (l1 l2 : List Nat) (h1 : validBytes l1)
    (h2 : validBytes l2) (he : hexEncode l1 = hexEncode l2) : l1 = l2 := by
  have := hexDecode_hexEncode l1 h1
  rw [he, hexDecode_hexEncode l2 h2] at this
  exact this.symm

/-! ## Lemmas about splitting on the colon byte -/

/-- A string without the delimiter splits into the single chunk itself. -/
theorem splitOnByte_of_not_mem (d : Nat) (l : List Nat) (hl : d ∉ l) :
    splitOnByte d l = [l] := by
  induction l with
  | nil => simp [splitOnByte]
  | cons b bs ih =>
    have hb : b ≠ d := fun h => hl (h ▸ List.mem_cons_self b bs)
    have hbs : d ∉ bs := fun h => hl (List.mem_cons_of_mem b h)
    simp [splitOnByte, hb, ih hbs]

/-- Splitting at a delimiter that first occurs after a clean chunk peels
off that chunk. -/
theorem splitOnByte_append (d : Nat) (h rest : List Nat) (hh : d ∉ h) :
    splitOnByte d (h ++ d :: rest) = h :: splitOnByte d rest := by
  induction h with
  | nil => simp [splitOnByte]
  | cons b bs ih =>
    have hb : b ≠ d := fun he => hh (he ▸ List.mem_cons_self b bs)
    have hbs : d ∉ bs := fun he => hh (List.mem_cons_of_mem b he)
    simp [splitOnByte, hb, ih hbs]

/-- A well-formed token `A : B : C` with colon-free segments splits into
exactly its three segments. -/
theorem splitOnByte_token (A B C : List Nat) (hA : 58 ∉ A) (hB : 58 ∉ B)
    (hC : 58 ∉ C) :
    splitOnByte 58 (A ++ 58 :: (B ++ 58 :: C)) = [A, B, C] := by
  rw [splitOnByte_append 58 A _ hA, splitOnByte_append 58 B _ hB,
    splitOnByte_of_not_mem 58 C hC]

/-! ## Lemmas about the stream cipher -/

/-- Each keystream byte is a byte. -/
theorem keyStreamByte_lt (key iv : List Nat) (i : Nat) :
    keyStreamByte key iv i < 256 := Nat.mod_lt _ (by omega)

/-- The CTR transformation is an involution: decrypting a ciphertext
with the key and iv that produced it recovers the plaintext. -/
theorem cipherBytes_cipherBytes (key iv : List Nat) (i : Nat) (l : List Nat) :
    cipherBytes key iv i (cipherBytes key iv i l) = l := by
  induction l generalizing i with
  | nil => simp [cipherBytes]
  | cons b bs ih =>
    simp [cipherBytes, ih, Nat.xor_cancel_right]

/-- The CTR transformation of a valid byte string is a valid byte
string. -/
theorem cipherBytes_valid (key iv : List Nat) (i : Nat) (l : List Nat)
    (hl : validBytes l) : validBytes (cipherBytes key iv i l) := by
  induction l generalizing i with
  | nil => intro b hb; simp [cipherBytes] at hb
  | cons b bs ih =>
    intro x hx
    simp only [cipherBytes, List.mem_cons] at hx
    rcases hx with h | h
    · subst h
      have h1 : b < 256 := hl b (List.mem_cons_self b bs)
      have h2 := keyStreamByte_lt key iv i
      have h256 : (256 : Nat) = 2 ^ 8 := by norm_num
      rw [h256] at h1 h2 ⊢
      exact Nat.xor_lt_two_pow h1 h2
    · exact ih (i + 1) (fun y hy => hl y (List.mem_cons_of_mem b hy)) x h

/-- The CTR transformation preserves length. -/
theorem cipherBytes_length (key iv : List Nat) (i : Nat) (l : List Nat) :
    (cipherBytes key iv i l).length = l.length := by
  induction l generalizing i with
  | nil => simp [cipherBytes]
  | cons b bs ih => simp [cipherBytes, ih]

/-- The CTR transformation of a non-empty plaintext is non-empty. -/
theorem cipherBytes_ne_nil (key iv : List Nat) (i : Nat) (l : List Nat)
    (hl : l ≠ []) : cipherBytes key iv i l ≠ [] := by
  cases l with
  | nil => exact absurd rfl hl
  | cons b bs => simp [cipherBytes]

/-- The authentication tag is 16 bytes long. -/
theorem computeAuthTag_length (key iv ct : List Nat) :
    (computeAuthTag key iv ct).length = 16 := by
  simp [computeAuthTag]

/-- The authentication tag is a valid byte string. -/
theorem computeAuthTag_valid (key iv ct : List Nat) :
    validBytes (computeAuthTag key iv ct) := by
  intro b hb
  simp only [computeAuthTag, List.mem_map] at hb
  obtain ⟨j, _, hj⟩ := hb
  rw [← hj]
  exact Nat.mod_lt _ (by omega)

/-! ## Core behaviour of `decrypt` -/

/-- `decryptParts` rejects any part list that does not have exactly
three segments, with the caller-visible error
`'Failed to decrypt data'`. -/
theorem decryptParts_of_length_ne_three (key : List Nat) (l : List (List Nat))
    (hl : l.length ≠ 3) : decryptParts key l = Except.error "Failed to decrypt data" := by
  match l with
  | [] => rfl
  | [_] => rfl
  | [_, _] => rfl
  | [_, _, _] => simp at hl
  | _ :: _ :: _ :: _ :: _ => rfl

/-- A non-empty string containing a colon but not splitting into exactly
three segments makes `decrypt` fail with `'Failed to decrypt data'`. -/
theorem decrypt_error_of_bad_segment_count (key s : List Nat) (hmem : 58 ∈ s)
    (hparts : (splitOnByte 58 s).length ≠ 3) :
    decrypt key (JSValue.vStr s) = Except.error "Failed to decrypt data" := by
  have hne : s ≠ [] := by
    intro h
    rw [h] at hmem
    simp at hmem
  simp only [decrypt, if_neg hne, if_pos hmem]
  exact decryptParts_of_length_ne_three key _ hparts

/-- Round trip: decrypting the encryption of a non-empty byte string
under the same key, with the 16-byte iv the encryptor drew, recovers the
plaintext. -/
theorem decrypt_encrypt_roundtrip (key iv s : List Nat) (hivlen : iv.length = 16)
    (hiv : validBytes iv) (hs : s ≠ []) (hsv : validBytes s) :
    decrypt key (encrypt key iv (JSValue.vStr s)) = Except.ok (JSValue.vStr s) := by
  have hct : validBytes (cipherBytes key iv 0 s) := cipherBytes_valid key iv 0 s hsv
  have htok : encrypt key iv (JSValue.vStr s) =
      JSValue.vStr (hexEncode iv ++ 58 ::
        (hexEncode (computeAuthTag key iv (cipherBytes key iv 0 s)) ++ 58 ::
          hexEncode (cipherBytes key iv 0 s))) := by
    simp [encrypt, hs]
  rw [htok]
  have h58 : (58 : Nat) ∈ hexEncode iv ++ 58 ::
      (hexEncode (computeAuthTag key iv (cipherBytes key iv 0 s)) ++ 58 ::
        hexEncode (cipherBytes key iv 0 s)) := by simp
  have hne : hexEncode iv ++ 58 ::
      (hexEncode (computeAuthTag key iv (cipherBytes key iv 0 s)) ++ 58 ::
        hexEncode (cipherBytes key iv 0 s)) ≠ [] := by
    intro h
    rw [h] at h58
    simp at h58
  simp only [decrypt, if_neg hne, if_pos h58]
  rw [splitOnByte_token _ _ _ (colon_not_mem_hexEncode iv)
    (colon_not_mem_hexEncode _) (colon_not_mem_hexEncode _)]
  have hivne : iv ≠ [] := by
    intro h
    rw [h] at hivlen
    simp at hivlen
  simp only [decryptParts, hexDecode_hexEncode iv hiv,
    hexDecode_hexEncode _ (computeAuthTag_valid key iv _),
    hexDecode_hexEncode _ hct, if_neg hivne, computeAuthTag_length,
    if_neg (by omega : ¬(16 : Nat) ≠ 16)]
  rw [if_neg (by simp)]
  rw [cipherBytes_cipherBytes]

/-- A non-empty byte string hex-encodes to a non-empty string. -/
theorem hexEncode_ne_nil (l : List Nat) (hl : l ≠ []) : hexEncode l ≠ [] := by
  cases l with
  | nil => exact absurd rfl hl
  | cons b bs => simp [hexEncode]

/-! ## The claims -/

/-- C1: for every non-empty string s (as UTF-8 bytes, multi-byte
characters included), revealing the result of protecting s under the
process key returns s exactly: `decrypt(encrypt(s)) = s` for the 16-byte
iv the encryptor drew. -/
theorem claim_C1_reveal_protect_roundtrip (key iv s : List Nat)
    (hivlen : iv.length = 16) (hiv : validBytes iv) (hs : s ≠ [])
    (hsv : validBytes s) :
    decrypt key (encrypt key iv (JSValue.vStr s)) = Except.ok (JSValue.vStr s) :=
  decrypt_encrypt_roundtrip key iv s hivlen hiv hs hsv

/-- Witness for C1 at the concrete key, iv and the UTF-8 bytes
`[240, 159, 152, 138]` of the emoji 😊. -/
theorem claim_C1_reveal_protect_roundtrip_witness :
    cexIv.length = 16 ∧ validBytes cexIv ∧
      ([240, 159, 152, 138] : List Nat) ≠ [] ∧
      validBytes [240, 159, 152, 138] ∧
      decrypt cexKey (encrypt cexKey cexIv (JSValue.vStr [240, 159, 152, 138])) =
        Except.ok (JSValue.vStr [240, 159, 152, 138]) :=
  ⟨by decide, by decide, by decide, by decide,
    claim_C1_reveal_protect_roundtrip cexKey cexIv [240, 159, 152, 138]
      (by decide) (by decide) (by decide) (by decide)⟩

/-- C2: every well-formed three-segment token (16-byte iv segment,
16-byte tag segment, hex ciphertext) whose authentication tag does not
verify under the process key — tampered tag or token produced under a
different key — makes `decrypt` fail with the decryption-failure error,
returning no plaintext. -/
theorem claim_C2_tag_mismatch_fails (key iv tg ct : List Nat)
    (hivlen : iv.length = 16) (hiv : validBytes iv) (htglen : tg.length = 16)
    (htg : validBytes tg) (hct : validBytes ct)
    (hmis : tg ≠ computeAuthTag key iv ct) :
    decrypt key (JSValue.vStr
        (hexEncode iv ++ 58 :: (hexEncode tg ++ 58 :: hexEncode ct))) =
      Except.error "Failed to decrypt data" := by
  have h58 : (58 : Nat) ∈ hexEncode iv ++ 58 :: (hexEncode tg ++ 58 :: hexEncode ct) := by
    simp
  have hne : hexEncode iv ++ 58 :: (hexEncode tg ++ 58 :: hexEncode ct) ≠ [] := by
    intro h
    rw [h] at h58
    simp at h58
  simp only [decrypt, if_neg hne, if_pos h58]
  rw [splitOnByte_token _ _ _ (colon_not_mem_hexEncode iv)
    (colon_not_mem_hexEncode tg) (colon_not_mem_hexEncode ct)]
  have hivne : iv ≠ [] := by
    intro h
    rw [h] at hivlen
    simp at hivlen
  simp only [decryptParts, hexDecode_hexEncode iv hiv, hexDecode_hexEncode tg htg,
    hexDecode_hexEncode ct hct, if_neg hivne, htglen,
    if_neg (by omega : ¬(16 : Nat) ≠ 16)]
  rw [if_pos hmis]

set_option maxRecDepth 40000 in
/-- Witness for C2 at a concrete token whose tag segment is 16 zero
bytes, which does not authenticate under `cexKey`. -/
theorem claim_C2_tag_mismatch_fails_witness :
    cexIv.length = 16 ∧ validBytes cexIv ∧
      (List.replicate 16 0 : List Nat).length = 16 ∧
      validBytes (List.replicate 16 0) ∧
      validBytes (cipherBytes cexKey cexIv 0 [104, 105]) ∧
      List.replicate 16 0 ≠
        computeAuthTag cexKey cexIv (cipherBytes cexKey cexIv 0 [104, 105]) ∧
      decrypt cexKey (JSValue.vStr
          (hexEncode cexIv ++ 58 :: (hexEncode (List.replicate 16 0) ++ 58 ::
            hexEncode (cipherBytes cexKey cexIv 0 [104, 105])))) =
        Except.error "Failed to decrypt data" :=
  ⟨by decide, by decide, by decide, by decide, by decide, by decide,
    claim_C2_tag_mismatch_fails cexKey cexIv (List.replicate 16 0)
      (cipherBytes cexKey cexIv 0 [104, 105])
      (by decide) (by decide) (by decide) (by decide) (by decide) (by decide)⟩

/-- C3 (code bug): with no configured secret, `getEncryptionKey` draws
fresh random bytes on every call rather than holding a single in-memory
key for the process lifetime: two consecutive calls in the same process,
reading the ambient random stream `idStream`, return different keys. -/
theorem claim_C3_fallback_key_differs :
    (getEncryptionKey none idStream 0).1 ≠
      (getEncryptionKey none idStream (getEncryptionKey none idStream 0).2).1 := by
  decide

set_option maxRecDepth 40000 in
/-- Counterexample for C4: the wrong-segment-count input `"a:b"` (bytes
97, 58, 98) and a well-formed token with a failing authentication tag
produce the *identical* error `'Failed to decrypt data'` — the
segment-count failure is not an error distinct from the decryption
failure, because the internal `'Invalid encrypted data format'` throw is
caught and rethrown by `decrypt`'s own `catch`. -/
theorem claim_C4_format_error_not_distinct :
    decrypt cexKey (JSValue.vStr [97, 58, 98]) =
        Except.error "Failed to decrypt data" ∧
      decrypt cexKey (JSValue.vStr cexBadToken) =
        Except.error "Failed to decrypt data" := by
  constructor
  · decide
  · decide

/-- C4 (amended): for every string containing a colon that does not
split into exactly 3 colon-separated segments, `decrypt` signals an
error and aborts the read — but it is the same generic
`'Failed to decrypt data'` failure as a decryption error, not a distinct
format error. -/
theorem claim_C4_bad_format_fails (key s : List Nat) (hmem : 58 ∈ s)
    (hparts : (splitOnByte 58 s).length ≠ 3) :
    decrypt key (JSValue.vStr s) = Except.error "Failed to decrypt data" :=
  decrypt_error_of_bad_segment_count key s hmem hparts

/-- Witness for the amended C4 at the concrete input `"a:b"`. -/
theorem claim_C4_bad_format_fails_witness :
    (58 : Nat) ∈ ([97, 58, 98] : List Nat) ∧
      (splitOnByte 58 [97, 58, 98]).length ≠ 3 ∧
      decrypt cexKey (JSValue.vStr [97, 58, 98]) =
        Except.error "Failed to decrypt data" :=
  ⟨by decide, by decide,
    claim_C4_bad_format_fails cexKey [97, 58, 98] (by decide) (by decide)⟩

/-- C5: encrypting the same non-empty plaintext under two distinct fresh
nonces yields two different tokens, and both tokens decrypt back to the
plaintext under the process key. -/
theorem claim_C5_nonce_freshness (key iv1 iv2 s : List Nat)
    (h1len : iv1.length = 16) (h1v : validBytes iv1) (h2len : iv2.length = 16)
    (h2v : validBytes iv2) (hivne : iv1 ≠ iv2) (hs : s ≠ [])
    (hsv : validBytes s) :
    encrypt key iv1 (JSValue.vStr s) ≠ encrypt key iv2 (JSValue.vStr s) ∧
      decrypt key (encrypt key iv1 (JSValue.vStr s)) = Except.ok (JSValue.vStr s) ∧
      decrypt key (encrypt key iv2 (JSValue.vStr s)) = Except.ok (JSValue.vStr s) := by
  refine ⟨?_, decrypt_encrypt_roundtrip key iv1 s h1len h1v hs hsv,
    decrypt_encrypt_roundtrip key iv2 s h2len h2v hs hsv⟩
  have e1 : encrypt key iv1 (JSValue.vStr s) =
      JSValue.vStr (hexEncode iv1 ++ 58 ::
        (hexEncode (computeAuthTag key iv1 (cipherBytes key iv1 0 s)) ++ 58 ::
          hexEncode (cipherBytes key iv1 0 s))) := by
    simp [encrypt, hs]
  have e2 : encrypt key iv2 (JSValue.vStr s) =
      JSValue.vStr (hexEncode iv2 ++ 58 ::
        (hexEncode (computeAuthTag key iv2 (cipherBytes key iv2 0 s)) ++ 58 ::
          hexEncode (cipherBytes key iv2 0 s))) := by
    simp [encrypt, hs]
  rw [e1, e2]
  intro h
  simp only [JSValue.vStr.injEq] at h
  have hlen : (hexEncode iv1).length = (hexEncode iv2).length := by
    rw [hexEncode_length, hexEncode_length, h1len, h2len]
  obtain ⟨hh, -⟩ := List.append_inj h hlen
  exact hivne (hexEncode_injective iv1 iv2 h1v h2v hh)

set_option maxRecDepth 40000 in
/-- Witness for C5 at a concrete key, two concrete distinct 16-byte ivs
and the plaintext bytes of `"hi"`. -/
theorem claim_C5_nonce_freshness_witness :
    cexIv.length = 16 ∧ validBytes cexIv ∧ cexIv2.length = 16 ∧
      validBytes cexIv2 ∧ cexIv ≠ cexIv2 ∧ ([104, 105] : List Nat) ≠ [] ∧
      validBytes [104, 105] ∧
      (encrypt cexKey cexIv (JSValue.vStr [104, 105]) ≠
          encrypt cexKey cexIv2 (JSValue.vStr [104, 105]) ∧
        decrypt cexKey (encrypt cexKey cexIv (JSValue.vStr [104, 105])) =
          Except.ok (JSValue.vStr [104, 105]) ∧
        decrypt cexKey (encrypt cexKey cexIv2 (JSValue.vStr [104, 105])) =
          Except.ok (JSValue.vStr [104, 105])) :=
  ⟨by decide, by decide, by decide, by decide, by decide, by decide, by decide,
    claim_C5_nonce_freshness cexKey cexIv cexIv2 [104, 105]
      (by decide) (by decide) (by decide) (by decide) (by decide) (by decide)
      (by decide)⟩

/-- C6: a non-empty string with no colon is treated as legacy plaintext
and returned unchanged by `decrypt`, without error. -/
theorem claim_C6_legacy_passthrough (key s : List Nat) (hs : s ≠ [])
    (hmem : 58 ∉ s) :
    decrypt key (JSValue.vStr s) = Except.ok (JSValue.vStr s) := by
  simp [decrypt, hs, hmem]

/-- Witness for C6 at the bytes of `"plain unencrypted text"`. -/
theorem claim_C6_legacy_passthrough_witness :
    ([112, 108, 97, 105, 110, 32, 117, 110, 101, 110, 99, 114, 121, 112, 116,
        101, 100, 32, 116, 101, 120, 116] : List Nat) ≠ [] ∧
      (58 : Nat) ∉ ([112, 108, 97, 105, 110, 32, 117, 110, 101, 110, 99, 114,
        121, 112, 116, 101, 100, 32, 116, 101, 120, 116] : List Nat) ∧
      decrypt cexKey (JSValue.vStr [112, 108, 97, 105, 110, 32, 117, 110, 101,
          110, 99, 114, 121, 112, 116, 101, 100, 32, 116, 101, 120, 116]) =
        Except.ok (JSValue.vStr [112, 108, 97, 105, 110, 32, 117, 110, 101,
          110, 99, 114, 121, 112, 116, 101, 100, 32, 116, 101, 120, 116]) :=
  ⟨by decide, by decide,
    claim_C6_legacy_passthrough cexKey _ (by decide) (by decide)⟩

/-- C7: any value that is not a non-empty string — `null`, `undefined`,
numbers, booleans, the empty string — passes through both `encrypt` and
`decrypt` unchanged, and neither throws. -/
theorem claim_C7_non_string_passthrough (key iv : List Nat) (v : JSValue)
    (hv : isNonEmptyString v = false) :
    encrypt key iv v = v ∧ decrypt key v = Except.ok v := by
  cases v with
  | vStr s =>
    simp only [isNonEmptyString, Bool.not_eq_false'] at hv
    have hs : s = [] := by simpa using hv
    subst hs
    exact ⟨by simp [encrypt], by simp [decrypt]⟩
  | vNum n => exact ⟨rfl, rfl⟩
  | vBool b => exact ⟨rfl, rfl⟩
  | vNull => exact ⟨rfl, rfl⟩
  | vUndef => exact ⟨rfl, rfl⟩

/-- Witness for C7 at `null`. -/
theorem claim_C7_non_string_passthrough_witness :
    isNonEmptyString JSValue.vNull = false ∧
      (encrypt cexKey cexIv JSValue.vNull = JSValue.vNull ∧
        decrypt cexKey JSValue.vNull = Except.ok JSValue.vNull) :=
  ⟨by decide, claim_C7_non_string_passthrough cexKey cexIv JSValue.vNull (by decide)⟩

/-- C8: encrypting a non-empty string produces a token of exactly three
colon-separated segments — the hex-encoded nonce, the hex-encoded
authentication tag and the hex-encoded ciphertext, in that order — each
segment non-empty and consisting only of lowercase hex digit characters
(the token matches the pattern of one-or-more `[0-9a-f]`, colon,
one-or-more `[0-9a-f]`, colon, one-or-more `[0-9a-f]`). -/
theorem claim_C8_token_format (key iv s : List Nat) (hivlen : iv.length = 16)
    (hiv : validBytes iv) (hs : s ≠ []) (hsv : validBytes s) :
    ∃ t, encrypt key iv (JSValue.vStr s) = JSValue.vStr t ∧
      splitOnByte 58 t =
        [hexEncode iv,
         hexEncode (computeAuthTag key iv (cipherBytes key iv 0 s)),
         hexEncode (cipherBytes key iv 0 s)] ∧
      ∀ seg ∈ splitOnByte 58 t, seg ≠ [] ∧ ∀ c ∈ seg, isLowerHexByte c := by
  refine ⟨hexEncode iv ++ 58 ::
      (hexEncode (computeAuthTag key iv (cipherBytes key iv 0 s)) ++ 58 ::
        hexEncode (cipherBytes key iv 0 s)), ?_, ?_, ?_⟩
  · simp [encrypt, hs]
  · exact splitOnByte_token _ _ _ (colon_not_mem_hexEncode iv)
      (colon_not_mem_hexEncode _) (colon_not_mem_hexEncode _)
  · rw [splitOnByte_token _ _ _ (colon_not_mem_hexEncode iv)
      (colon_not_mem_hexEncode _) (colon_not_mem_hexEncode _)]
    intro seg hseg
    simp only [List.mem_cons, List.not_mem_nil, or_false] at hseg
    rcases hseg with h | h | h
    · subst h
      refine ⟨hexEncode_ne_nil iv ?_, hexEncode_isLowerHex iv hiv⟩
      intro h0
      rw [h0] at hivlen
      simp at hivlen
    · subst h
      refine ⟨hexEncode_ne_nil _ ?_, hexEncode_isLowerHex _ (computeAuthTag_valid key iv _)⟩
      intro h0
      have hlen := computeAuthTag_length key iv (cipherBytes key iv 0 s)
      rw [h0] at hlen
      simp at hlen
    · subst h
      exact ⟨hexEncode_ne_nil _ (cipherBytes_ne_nil key iv 0 s hs),
        hexEncode_isLowerHex _ (cipherBytes_valid key iv 0 s hsv)⟩

set_option maxRecDepth 40000 in
/-- Witness for C8 at a concrete key, iv and the plaintext bytes of
`"Dear diary, today was great."`. -/
theorem claim_C8_token_format_witness :
    cexIv.length = 16 ∧ validBytes cexIv ∧
      ([68, 101, 97, 114, 32, 100, 105, 97, 114, 121, 44, 32, 116, 111, 100,
        97, 121, 32, 119, 97, 115, 32, 103, 114, 101, 97, 116, 46] : List Nat) ≠ [] ∧
      validBytes [68, 101, 97, 114, 32, 100, 105, 97, 114, 121, 44, 32, 116,
        111, 100, 97, 121, 32, 119, 97, 115, 32, 103, 114, 101, 97, 116, 46] ∧
      (∃ t, encrypt cexKey cexIv (JSValue.vStr [68, 101, 97, 114, 32, 100, 105,
          97, 114, 121, 44, 32, 116, 111, 100, 97, 121, 32, 119, 97, 115, 32,
          103, 114, 101, 97, 116, 46]) = JSValue.vStr t ∧
        splitOnByte 58 t =
          [hexEncode cexIv,
           hexEncode (computeAuthTag cexKey cexIv (cipherBytes cexKey cexIv 0
             [68, 101, 97, 114, 32, 100, 105, 97, 114, 121, 44, 32, 116, 111,
              100, 97, 121, 32, 119, 97, 115, 32, 103, 114, 101, 97, 116, 46])),
           hexEncode (cipherBytes cexKey cexIv 0 [68, 101, 97, 114, 32, 100,
             105, 97, 114, 121, 44, 32, 116, 111, 100, 97, 121, 32, 119, 97,
             115, 32, 103, 114, 101, 97, 116, 46])] ∧
        ∀ seg ∈ splitOnByte 58 t, seg ≠ [] ∧ ∀ c ∈ seg, isLowerHexByte c) :=
  ⟨by decide, by decide, by decide, by decide,
    claim_C8_token_format cexKey cexIv _ (by decide) (by decide) (by decide)
      (by decide)⟩

set_option maxRecDepth 40000 in
/-- Counterexample for C9: the wellness-check post-find hook does *not*
propagate a per-entry decryption failure — on an `answers` entry holding
a well-formed token that fails authentication under the process key, the
hook returns normally and keeps the undecryptable ciphertext in place,
even though `decrypt` itself fails on that value. -/
theorem claim_C9_hook_swallows_failure :
    decrypt cexKey (JSValue.vStr cexBadToken) =
        Except.error "Failed to decrypt data" ∧
      decryptAnswersHook cexKey [([113, 49], cexBadToken)] =
        [([113, 49], cexBadToken)] := by
  constructor
  · decide
  · decide

/-- C9 (amended): on the wellness-check answers read path a per-entry
decryption failure is caught, not propagated: the post-find hook keeps
the stored ciphertext in place for the failing entry and completes
without error. -/
theorem claim_C9_hook_keeps_ciphertext (key k v : List Nat) (e : String)
    (he : decrypt key (JSValue.vStr v) = Except.error e) :
    decryptAnswersHook key [(k, v)] = [(k, v)] := by
  simp [decryptAnswersHook, he]

set_option maxRecDepth 40000 in
/-- Witness for the amended C9 at the concrete tampered token. -/
theorem claim_C9_hook_keeps_ciphertext_witness :
    decrypt cexKey (JSValue.vStr cexBadToken) =
        Except.error "Failed to decrypt data" ∧
      decryptAnswersHook cexKey [([113, 49], cexBadToken)] =
        [([113, 49], cexBadToken)] :=
  ⟨by decide,
    claim_C9_hook_keeps_ciphertext cexKey [113, 49] cexBadToken
      "Failed to decrypt data" (by decide)⟩

/-- C10: a string that contains a colon is never passed through
unchanged by the legacy-plaintext branch — in particular, a legacy value
containing a colon that does not split into exactly 3 segments (such as
`"meeting at 10:30"`) makes `decrypt` raise the decryption error rather
than return the value. -/
theorem claim_C10_colon_no_passthrough (key s : List Nat) (hmem : 58 ∈ s)
    (hparts : (splitOnByte 58 s).length ≠ 3) :
    decrypt key (JSValue.vStr s) ≠ Except.ok (JSValue.vStr s) ∧
      decrypt key (JSValue.vStr s) = Except.error "Failed to decrypt data" := by
  have h := decrypt_error_of_bad_segment_count key s hmem hparts
  refine ⟨?_, h⟩
  rw [h]
  intro hcontra
  exact Except.noConfusion hcontra

/-- Witness for C10 at the bytes of `"meeting at 10:30"`. -/
theorem claim_C10_colon_no_passthrough_witness :
    (58 : Nat) ∈ ([109, 101, 101, 116, 105, 110, 103, 32, 97, 116, 32, 49,
        48, 58, 51, 48] : List Nat) ∧
      (splitOnByte 58 [109, 101, 101, 116, 105, 110, 103, 32, 97, 116, 32, 49,
        48, 58, 51, 48]).length ≠ 3 ∧
      (decrypt cexKey (JSValue.vStr [109, 101, 101, 116, 105, 110, 103, 32,
          97, 116, 32, 49, 48, 58, 51, 48]) ≠
          Except.ok (JSValue.vStr [109, 101, 101, 116, 105, 110, 103, 32, 97,
            116, 32, 49, 48, 58, 51, 48]) ∧
        decrypt cexKey (JSValue.vStr [109, 101, 101, 116, 105, 110, 103, 32,
            97, 116, 32, 49, 48, 58, 51, 48]) =
          Except.error "Failed to decrypt data") :=
  ⟨by decide, by decide,
    claim_C10_colon_no_passthrough cexKey _ (by decide) (by decide)⟩
